import Mathlib

/-!
Verification of the arena402 game/orchestration core.

This file gives a shallow embedding of the game state machines
(`src/games/base-game.ts`, the rock-paper-scissors, coin-flip,
tic-tac-toe and chess variants) and of the arbiter's settlement logic
(`endGame`), and proves or refutes the frozen claims about them.

Modelling conventions:
* JS `Map`s keyed by strings become association lists (insertion order
  preserved, as for JS `Map`).
* Randomness (`Math.random()`) and the clock (`Date.now()`) are passed in
  explicitly through an `Oracle` value.
* A thrown JS exception (the `throw` in `evaluateRound`, or a `!`
  non-null assertion hitting `undefined`) is modelled by an `Option`
  result being `none`.
* The `explanation` field of a round result is called `expl` here; its
  content is built exactly as in the source, with the random commentary
  index taken from the oracle.
* Monetary fields of the game configs (entry fee, move price) are
  floating point in the source and play no role in any claim; they are
  omitted from the embedded `GameConfig`.
-/

namespace Arena

/-- Match status, `'waiting' | 'active' | 'finished'` in `base-game.ts`. -/
inductive Status where
  | waiting : Status
  | active : Status
  | finished : Status
deriving DecidableEq, Repr

/-- One player of `GameState.players` in `base-game.ts`. -/
structure Player where
  id : String
  name : String
  score : Nat
deriving DecidableEq, Repr

/-- `PlayerMove` of `base-game.ts`; `timestamp` comes from the oracle clock. -/
structure PlayerMove where
  playerId : String
  move : String
  timestamp : Nat
deriving DecidableEq, Repr

/-- `RoundResult` of `base-game.ts`; the source's `explanation` field is
named `expl` here. -/
structure RoundResult where
  winnerId : Option String
  tie : Bool
  moves : List PlayerMove
  expl : String
deriving DecidableEq, Repr

/-- `GameState` of `base-game.ts`; `currentMoves` is the pending-move map
(JS `Map<string, string>` in insertion order). -/
structure GameState where
  gameId : String
  gameType : String
  round : Nat
  maxRounds : Nat
  players : List Player
  currentMoves : List (String × String)
  history : List RoundResult
  status : Status
  winnerId : Option String
deriving DecidableEq, Repr

/-- `MoveValidation` of `base-game.ts`. -/
structure MoveValidation where
  valid : Bool
  error : Option String
deriving DecidableEq, Repr

/-- The result record returned by `submitMove`. -/
structure SubmitResult where
  success : Bool
  error : Option String
  roundCompleted : Option Bool
deriving DecidableEq, Repr

/-- The sources of nondeterminism consumed by one `submitMove` call:
`Date.now()`, the coin flip's `Math.random() < 0.5`, and the random
commentary index used in the explanation strings. -/
structure Oracle where
  now : Nat
  flip : Bool
  commentIdx : Nat
deriving DecidableEq, Repr

/-- `GameConfig` of `base-game.ts` (monetary float fields omitted). -/
structure GameConfig where
  id : String
  name : String
  winCondition : String
  maxRounds : Option Nat
  turnBased : Option Bool
deriving DecidableEq, Repr

/-- The constructor inputs: one registered player (id and display name). -/
structure PlayerIn where
  id : String
  name : String
deriving DecidableEq, Repr

/-- JS `move.toLowerCase()` (per-character ASCII lowering; the embedded
move strings are ASCII). Defined over the character list so that it
computes by kernel reduction. -/
def jsToLowerCase (s : String) : String := ⟨s.toList.map Char.toLower⟩

/-- JS `Map.get`: first binding of the key, if any. -/
def alookup {α : Type} : List (String × α) → String → Option α
  | [], _ => none
  | (k, v) :: rest, key => if k = key then some v else alookup rest key

/-- JS `Map.has`. -/
def ahas {α : Type} (m : List (String × α)) (key : String) : Bool :=
  (alookup m key).isSome

/-- JS `Map.set`: replace in place if the key exists, else append
(insertion order is preserved, as for JS `Map`). -/
def aset {α : Type} : List (String × α) → String → α → List (String × α)
  | [], key, v => [(key, v)]
  | (k, w) :: rest, key, v =>
      if k = key then (key, v) :: rest else (k, w) :: aset rest key v

/-- `players.find(p => p.id === playerId)` — `findPlayerById` of `base-game.ts`. -/
def findPlayerById (s : GameState) (playerId : String) : Option Player :=
  s.players.find? (fun p => p.id = playerId)

/-- `if (player) player.score++` on the first player matching the winner id
(`BaseGame.submitMove`). -/
def creditWinner : List Player → String → List Player
  | [], _ => []
  | p :: rest, w =>
      if p.id = w then { p with score := p.score + 1 } :: rest
      else p :: creditWinner rest w

/-- One game variant's overridable operations (the abstract methods of
`BaseGame`). `evaluateRound` returns `none` when the source would throw. -/
structure GameVariant where
  validateMove : GameState → String → String → MoveValidation
  evaluateRound : GameState → Oracle → Option (RoundResult × GameState)
  isGameOver : GameState → Bool
  getWinner : GameState → Option String

/-- The `BaseGame` constructor: fresh state for a config, id and player
list (`round = 0`, scores `0`, empty pending map and history, status
`active`). `maxRounds` is `config.maxRounds || 9`. -/
def initState (config : GameConfig) (gameId : String) (ps : List PlayerIn) : GameState :=
  { gameId := gameId
    gameType := config.id
    round := 0
    maxRounds := config.maxRounds.getD 9
    players := ps.map (fun p => { id := p.id, name := p.name, score := 0 })
    currentMoves := []
    history := []
    status := Status.active
    winnerId := none }

/-- `BaseGame.submitMove`: validate; record the move; if every player has
moved, evaluate the round, append it to history, increment `round`,
credit the winner's score, clear the pending map, and run the
completion check. `none` models a thrown exception from `evaluateRound`. -/
def submitMove (g : GameVariant) (s : GameState) (playerId move : String)
    (o : Oracle) : Option (SubmitResult × GameState) :=
  let validation := g.validateMove s playerId move
  if validation.valid = false then
    some ({ success := false, error := validation.error, roundCompleted := none }, s)
  else
    let s1 := { s with currentMoves := aset s.currentMoves playerId move }
    if s1.currentMoves.length = s1.players.length then
      match g.evaluateRound s1 o with
      | none => none
      | some (result, s2) =>
        let s3 := { s2 with history := s2.history ++ [result], round := s2.round + 1 }
        let s4 := match result.winnerId with
          | some w => { s3 with players := creditWinner s3.players w }
          | none => s3
        let s5 := { s4 with currentMoves := [] }
        let s6 :=
          if g.isGameOver s5 then
            { s5 with status := Status.finished, winnerId := g.getWinner s5 }
          else s5
        some ({ success := true, error := none, roundCompleted := some true }, s6)
    else
      some ({ success := true, error := none, roundCompleted := some false }, s1)

/-- `state.history[state.history.length - 1]`, read by the arbiter's
`/move` handler to decide whether to broadcast a round result. -/
def lastRound (s : GameState) : Option RoundResult :=
  s.history.getLast?

/-- The arbiter's `round_result` broadcast fires iff the move resolved a
round and the history has a last entry (`if (lastRound)`). -/
def roundResultBroadcastFires (roundComplete : Bool) (s : GameState) : Bool :=
  roundComplete && (lastRound s).isSome

/-- Stable descending sort by score, as JS `sort((a, b) => b.score - a.score)`
(insertion sort; equal scores keep their original order). -/
def sortByScoreDesc : List Player → List Player
  | [] => []
  | p :: rest => insertDesc p (sortByScoreDesc rest)
where
  insertDesc (p : Player) : List Player → List Player
    | [] => [p]
    | q :: qs => if q.score < p.score then p :: q :: qs else q :: insertDesc p qs

namespace RPS

/-- `RockPaperScissorsGame.CONFIG`. -/
def CONFIG : GameConfig :=
  { id := "rock-paper-scissors"
    name := "Rock Paper Scissors"
    winCondition := "First to 5 wins"
    maxRounds := some 9
    turnBased := none }

/-- The `validMoves` list of `validateMove`. -/
def validMoves : List String := ["rock", "paper", "scissors"]

/-- `MOVE_ICONS[move]`; a key outside the table renders as `undefined`
in the template string. -/
def moveIcon (m : String) : String :=
  if m = "rock" then "🪨"
  else if m = "paper" then "📄"
  else if m = "scissors" then "✂️"
  else "undefined"

/-- `WIN_COMMENTARY`. -/
def winCommentary : List String :=
  ["Absolutely demolished!", "No contest!", "Savage!", "Outplayed!", "Rekt!",
   "Get good!", "Not even close!", "Boom!", "Calculated!", "Too easy!"]

/-- `TIE_COMMENTARY`. -/
def tieCommentary : List String :=
  ["Great minds think alike... or do they?",
   "Perfectly balanced, as all things should be",
   "Two AIs, one brain cell",
   "It\x27s a stalemate!",
   "Nobody saw that coming... except everyone",
   "Try again, but with feeling!",
   "The crowd is confused",
   "A tie? Really?",
   "Even the AI is bored",
   "Statistical anomaly detected!"]

/-- `RockPaperScissorsGame.validateMove`: membership is checked on the
lowercased move; then the player must exist and must not already have
moved this round. -/
def validateMove (s : GameState) (playerId move : String) : MoveValidation :=
  if (validMoves.contains (jsToLowerCase move)) = false then
    { valid := false
      error := some ("Invalid move. Choose: " ++ String.intercalate ", " validMoves) }
  else
    match findPlayerById s playerId with
    | none => { valid := false, error := some "Player not found" }
    | some _ =>
      if ahas s.currentMoves playerId then
        { valid := false, error := some "You already made your move this round" }
      else
        { valid := true, error := none }

/-- `RockPaperScissorsGame.determineWinner`: `0` tie, `1` first mover wins,
`-1` second mover wins. Comparison is on the raw stored strings. -/
def determineWinner (move1 move2 : String) : Int :=
  if move1 = move2 then 0
  else if (move1 = "rock" ∧ move2 = "scissors")
       ∨ (move1 = "scissors" ∧ move2 = "paper")
       ∨ (move1 = "paper" ∧ move2 = "rock") then 1
  else -1

/-- `RockPaperScissorsGame.evaluateRound`: increments `round` itself, reads
the two pending moves in insertion order, and builds the result. `none`
models the `throw` when there are not exactly 2 moves, or a failed
player lookup. -/
def evaluateRound (s : GameState) (o : Oracle) : Option (RoundResult × GameState) :=
  let s' := { s with round := s.round + 1 }
  let moves := s'.currentMoves.map
    (fun pm => ({ playerId := pm.1, move := pm.2, timestamp := o.now } : PlayerMove))
  match moves with
  | [m1, m2] =>
    match findPlayerById s' m1.playerId, findPlayerById s' m2.playerId with
    | some p1, some p2 =>
      let outcome := determineWinner m1.move m2.move
      if outcome = 0 then
        let e := moveIcon m1.move ++ " vs " ++ moveIcon m2.move ++ " - "
          ++ (tieCommentary.getD (o.commentIdx % tieCommentary.length) "")
        some ({ winnerId := none, tie := true, moves := moves, expl := e }, s')
      else if outcome = 1 then
        let e := moveIcon m1.move ++ " " ++ p1.name ++ " destroys "
          ++ moveIcon m2.move ++ " " ++ p2.name ++ "! "
          ++ (winCommentary.getD (o.commentIdx % winCommentary.length) "")
        some ({ winnerId := some m1.playerId, tie := false, moves := moves, expl := e }, s')
      else
        let e := moveIcon m2.move ++ " " ++ p2.name ++ " crushes "
          ++ moveIcon m1.move ++ " " ++ p1.name ++ "! "
          ++ (winCommentary.getD (o.commentIdx % winCommentary.length) "")
        some ({ winnerId := some m2.playerId, tie := false, moves := moves, expl := e }, s')
    | _, _ => none
  | _ => none

/-- `RockPaperScissorsGame.isGameOver`: someone reached
`Math.ceil(maxRounds / 2)`, or `round >= maxRounds`. -/
def isGameOver (s : GameState) : Bool :=
  let maxScore := (s.maxRounds + 1) / 2
  (s.players.find? (fun p => maxScore ≤ p.score)).isSome || s.maxRounds ≤ s.round

/-- `RockPaperScissorsGame.getWinner`: the first player at the score
threshold, else (at the round cap) the strictly higher scorer, else null. -/
def getWinner (s : GameState) : Option String :=
  let maxScore := (s.maxRounds + 1) / 2
  match s.players.find? (fun p => maxScore ≤ p.score) with
  | some w => some w.id
  | none =>
    if s.maxRounds ≤ s.round then
      match sortByScoreDesc s.players with
      | a :: b :: _ => if b.score < a.score then some a.id else none
      | _ => none
    else none

/-- The RPS variant assembled for `BaseGame.submitMove`. -/
def variant : GameVariant :=
  { validateMove := validateMove
    evaluateRound := evaluateRound
    isGameOver := isGameOver
    getWinner := getWinner }

end RPS

namespace CoinFlip

/-- `CoinFlipGame.CONFIG`. -/
def CONFIG : GameConfig :=
  { id := "coin-flip"
    name := "Coin Flip"
    winCondition := "First to 3 wins"
    maxRounds := some 5
    turnBased := none }

/-- The `validMoves` list of `validateMove`. -/
def validMoves : List String := ["heads", "tails"]

/-- `CoinFlipGame.validateMove`. -/
def validateMove (s : GameState) (playerId move : String) : MoveValidation :=
  if (validMoves.contains (jsToLowerCase move)) = false then
    { valid := false
      error := some ("Invalid move. Choose: " ++ String.intercalate ", " validMoves) }
  else
    match findPlayerById s playerId with
    | none => { valid := false, error := some "Player not found" }
    | some _ =>
      if ahas s.currentMoves playerId then
        { valid := false, error := some "You already made your move this round" }
      else
        { valid := true, error := none }

/-- `CoinFlipGame.evaluateRound`: increments `round` itself, draws the
flip from the oracle, and — besides reporting the winner — increments the
winner's score in the state (`winner.score++`). `none` models a failed
`findPlayerById(...)!` lookup. -/
def evaluateRound (s : GameState) (o : Oracle) : Option (RoundResult × GameState) :=
  let s' := { s with round := s.round + 1 }
  let moves := s'.currentMoves.map
    (fun pm => ({ playerId := pm.1, move := pm.2, timestamp := o.now } : PlayerMove))
  let actualFlip := if o.flip then "heads" else "tails"
  let winners := moves.filter (fun m => jsToLowerCase m.move == actualFlip)
  if winners.length == 0 then
    some ({ winnerId := none, tie := true, moves := moves,
            expl := "Nobody guessed correctly!" }, s')
  else if winners.length == moves.length then
    some ({ winnerId := none, tie := true, moves := moves,
            expl := "Everyone guessed correctly - it\x27s a tie!" }, s')
  else
    match winners with
    | w :: _ =>
      match findPlayerById s' w.playerId with
      | none => none
      | some winner =>
        let s'' := { s' with players := creditWinner s'.players w.playerId }
        some ({ winnerId := some w.playerId, tie := false, moves := moves,
                expl := winner.name ++ " guessed " ++ actualFlip ++ " correctly!" }, s'')
    | [] => none

/-- `CoinFlipGame.isGameOver`: someone reached
`Math.ceil(maxRounds / 2) + 1`, or `round >= maxRounds`. -/
def isGameOver (s : GameState) : Bool :=
  let maxScore := (s.maxRounds + 1) / 2 + 1
  (s.players.find? (fun p => maxScore ≤ p.score)).isSome || s.maxRounds ≤ s.round

/-- `CoinFlipGame.getWinner`. -/
def getWinner (s : GameState) : Option String :=
  let maxScore := (s.maxRounds + 1) / 2 + 1
  match s.players.find? (fun p => maxScore ≤ p.score) with
  | some w => some w.id
  | none =>
    if s.maxRounds ≤ s.round then
      match sortByScoreDesc s.players with
      | a :: b :: _ => if b.score < a.score then some a.id else none
      | _ => none
    else none

/-- The coin-flip variant assembled for `BaseGame.submitMove`. -/
def variant : GameVariant :=
  { validateMove := validateMove
    evaluateRound := evaluateRound
    isGameOver := isGameOver
    getWinner := getWinner }

end CoinFlip

/-- JS `parseInt(s)` (radix 10): skip leading whitespace, optional sign,
then the longest digit prefix; `none` models `NaN`. -/
def jsParseInt (s : String) : Option Int :=
  let cs := s.toList.dropWhile (fun c => c = ' ' ∨ c = '\t' ∨ c = '\n' ∨ c = '\r')
  match cs with
  | '-' :: rest => (digitsPrefix rest).map (fun n => -(n : Int))
  | '+' :: rest => (digitsPrefix rest).map (fun n => (n : Int))
  | _ => (digitsPrefix cs).map (fun n => (n : Int))
where
  digitsPrefix (cs : List Char) : Option Nat :=
    let ds := cs.takeWhile (fun c => c.isDigit)
    if ds.isEmpty then none
    else some (ds.foldl (fun acc c => acc * 10 + (c.toNat - 48)) 0)

namespace TTT

/-- `TicTacToeGame.CONFIG`. -/
def CONFIG : GameConfig :=
  { id := "tic-tac-toe"
    name := "Tic-Tac-Toe"
    winCondition := "Best of 3 rounds"
    maxRounds := some 3
    turnBased := some true }

/-- `WIN_LINES`: 3 rows, 3 columns, 2 diagonals (zero-indexed). -/
def WIN_LINES : List (List Nat) :=
  [[0, 1, 2], [3, 4, 5], [6, 7, 8],
   [0, 3, 6], [1, 4, 7], [2, 5, 8],
   [0, 4, 8], [2, 4, 6]]

/-- Full per-game state: the inherited `GameState` plus the board, the
`roundsWon` map, the symbol assignment, and the turn cursor. -/
structure TTTState where
  base : GameState
  board : List (Option String)
  roundsWon : List (String × Nat)
  playerSymbols : List (String × String)
  currentTurnIndex : Nat
deriving DecidableEq, Repr

/-- The `TicTacToeGame` constructor: empty board, zeroed `roundsWon`,
`players[0] ↦ 'X'`, `players[1] ↦ 'O'`, turn cursor `0`. `none` models
the constructor crashing on fewer than two players. -/
def init (gameId : String) (ps : List PlayerIn) : Option TTTState :=
  match ps with
  | p0 :: p1 :: _ =>
    some { base := initState CONFIG gameId ps
           board := List.replicate 9 none
           roundsWon := ps.map (fun p => (p.id, 0))
           playerSymbols := aset (aset [] p0.id "X") p1.id "O"
           currentTurnIndex := 0 }
  | _ => none

/-- Board cell read `board[i]`; an out-of-range index reads as `undefined`,
which the source treats like a non-null (occupied) cell in `validateMove`
and as a non-truthy cell in `checkWinner`. -/
def cell (board : List (Option String)) (i : Nat) : Option String :=
  (board.get? i).bind id

/-- One line of `checkWinner`:
`board[a] && board[a] === board[b] && board[a] === board[c]`. -/
def lineWins (board : List (Option String)) : List Nat → Option String
  | [a, b, c] =>
    match cell board a with
    | some x => if cell board b = some x ∧ cell board c = some x then some x else none
    | none => none
  | _ => none

/-- `checkWinner` over a given list of lines: the first winning line, with
its symbol. -/
def checkWinnerAux (board : List (Option String)) : List (List Nat) → Option (String × List Nat)
  | [] => none
  | l :: rest =>
    match lineWins board l with
    | some x => some (x, l)
    | none => checkWinnerAux board rest

/-- `TicTacToeGame.checkWinner`: scan `WIN_LINES` in order. -/
def checkWinner (board : List (Option String)) : Option (String × List Nat) :=
  checkWinnerAux board WIN_LINES

/-- `TicTacToeGame.isBoardFull`. -/
def isBoardFull (board : List (Option String)) : Bool :=
  board.all (fun c => c.isSome)

/-- `TicTacToeGame.validateMove`: turn check, `parseInt` range check,
cell-free check, player-exists check. The outer `none` models indexing
`players[currentTurnIndex]` out of range. -/
def validateMove (t : TTTState) (playerId move : String) : Option MoveValidation :=
  match t.base.players.get? t.currentTurnIndex with
  | none => none
  | some current =>
    if playerId ≠ current.id then
      some { valid := false, error := some ("Not your turn. Current turn: " ++ current.name) }
    else
      match jsParseInt move with
      | none => some { valid := false, error := some "Invalid position. Choose 1-9" }
      | some position =>
        if position < 1 ∨ 9 < position then
          some { valid := false, error := some "Invalid position. Choose 1-9" }
        else
          match (t.board.get? (position - 1).toNat) with
          | some none =>
            match findPlayerById t.base playerId with
            | none => some { valid := false, error := some "Player not found" }
            | some _ => some { valid := true, error := none }
          | _ =>
            some { valid := false
                   error := some ("Position " ++ toString position ++ " is already taken") }

/-- `TicTacToeGame.isGameOver`: some `roundsWon` entry reached
`Math.ceil(maxRounds / 2)`, or `round >= maxRounds`. -/
def isGameOver (t : TTTState) : Bool :=
  let maxWins := (t.base.maxRounds + 1) / 2
  t.roundsWon.any (fun pr => maxWins ≤ pr.2) || t.base.maxRounds ≤ t.base.round

/-- Stable descending sort of the `roundsWon` entries by win count, as JS
`entries.sort((a, b) => b[1] - a[1])`. -/
def sortWonDesc : List (String × Nat) → List (String × Nat)
  | [] => []
  | p :: rest => insertDesc p (sortWonDesc rest)
where
  insertDesc (p : String × Nat) : List (String × Nat) → List (String × Nat)
    | [] => [p]
    | q :: qs => if q.2 < p.2 then p :: q :: qs else q :: insertDesc p qs

/-- `TicTacToeGame.getWinner`: an inner `some w` is the returned winner id
(or `some none` for null); the outer `none` models the `!` assertions of
the logging code crashing. -/
def getWinner (t : TTTState) : Option (Option String) :=
  let maxWins := (t.base.maxRounds + 1) / 2
  match t.roundsWon.find? (fun pr => maxWins ≤ pr.2) with
  | some (pidW, _) =>
    match findPlayerById t.base pidW, t.base.players.find? (fun p => p.id ≠ pidW) with
    | some _, some _ => some (some pidW)
    | _, _ => none
  | none =>
    if t.base.maxRounds ≤ t.base.round then
      match sortWonDesc t.roundsWon with
      | e0 :: e1 :: _ =>
        if e1.2 < e0.2 then
          match findPlayerById t.base e0.1, t.base.players.find? (fun p => p.id ≠ e0.1) with
          | some _, some _ => some (some e0.1)
          | _, _ => none
        else some none
      | _ => none
    else some none

/-- `TicTacToeGame.submitMove` (full override of the base class): place
the symbol; on a completed line or full board credit the sub-round, reset
the board and turn cursor, increment `round`, and run the completion
check; otherwise advance the turn cursor. `none` models a thrown
exception (`!` assertion on a missing map entry). -/
def submitMove (t : TTTState) (playerId move : String) :
    Option (SubmitResult × TTTState) :=
  match validateMove t playerId move with
  | none => none
  | some v =>
    if v.valid = false then
      some ({ success := false, error := v.error, roundCompleted := none }, t)
    else
      match jsParseInt move with
      | none => none
      | some pos =>
        let position := (pos - 1).toNat
        match alookup t.playerSymbols playerId with
        | none => none
        | some symbol =>
          let board1 := t.board.set position (some symbol)
          let t1 := { t with board := board1 }
          let win := checkWinner board1
          let boardFull := isBoardFull board1
          if win.isSome ∨ boardFull then
            let afterCredit : Option TTTState :=
              match win with
              | some (winnerSymbol, _) =>
                match t1.playerSymbols.find? (fun pr => pr.2 = winnerSymbol) with
                | none => none
                | some (winnerId, _) =>
                  let wins := (alookup t1.roundsWon winnerId).getD 0 + 1
                  some { t1 with
                         roundsWon := aset t1.roundsWon winnerId wins
                         base := { t1.base with
                                   players := creditWinner t1.base.players winnerId } }
              | none => some t1
            match afterCredit with
            | none => none
            | some t2 =>
              let t3 := { t2 with
                          board := List.replicate 9 none
                          currentTurnIndex := 0
                          base := { t2.base with round := t2.base.round + 1 } }
              if isGameOver t3 then
                match getWinner t3 with
                | none => none
                | some w =>
                  some ({ success := true, error := none, roundCompleted := some true },
                        { t3 with base := { t3.base with
                                            status := Status.finished, winnerId := w } })
              else
                some ({ success := true, error := none, roundCompleted := some true }, t3)
          else
            some ({ success := true, error := none, roundCompleted := some false },
                  { t1 with currentTurnIndex :=
                      (t1.currentTurnIndex + 1) % t1.base.players.length })

end TTT

namespace Chess

/-- Outcome of asking the chess engine to apply a move: a new position and
the SAN string, an illegal-move result (`null` from `chess.move`), or a
thrown exception. -/
inductive MoveRes (Pos : Type) where
  | ok : Pos → String → MoveRes Pos
  | illegal : MoveRes Pos
  | exn : MoveRes Pos

/-- The external chess-rules engine (`chess.js`), abstracted: the spec
treats move legality and board mutation as delegated to an external
library. The engine is pure: the same position and move string always
give the same outcome (which also makes `validateMove`'s probe on a
cloned position agree with the real application). -/
structure Engine (Pos : Type) where
  start : Pos
  move : Pos → String → MoveRes Pos
  moves : Pos → List String
  isCheckmate : Pos → Bool
  isCheck : Pos → Bool
  isDraw : Pos → Bool
  isStalemate : Pos → Bool
  isOver : Pos → Bool
  fen : Pos → String

/-- `ChessGame.CONFIG`. -/
def CONFIG : GameConfig :=
  { id := "chess"
    name := "Chess"
    winCondition := "Checkmate, resignation, or timeout"
    maxRounds := some 1
    turnBased := some true }

/-- One entry of the chess game's private `moveHistory`. -/
structure HistEntry where
  player : String
  move : String
  fen : String
  commentary : Option String
deriving DecidableEq, Repr

/-- Full chess game state: the inherited `GameState`, the engine position,
the turn cursor and the private move history. -/
structure ChessState (Pos : Type) where
  base : GameState
  pos : Pos
  currentTurnIndex : Nat
  moveHistory : List HistEntry

/-- The `ChessGame` constructor. The random color shuffle is applied to
the player list before it reaches the constructor, so the list passed
here is already in seat order (index 0 = white). -/
def init {Pos : Type} (E : Engine Pos) (gameId : String) (ps : List PlayerIn) :
    ChessState Pos :=
  { base := initState CONFIG gameId ps
    pos := E.start
    currentTurnIndex := 0
    moveHistory := [] }

/-- `ChessGame.validateMove`: turn check, then probe the move on a copy of
the position. The outer `none` models indexing `players[currentTurnIndex]`
out of range. -/
def validateMove {Pos : Type} (E : Engine Pos) (c : ChessState Pos)
    (playerId move : String) : Option MoveValidation :=
  match c.base.players.get? c.currentTurnIndex with
  | none => none
  | some current =>
    if playerId ≠ current.id then
      some { valid := false, error := some ("Not your turn. Current turn: " ++ current.name) }
    else
      match E.move c.pos move with
      | MoveRes.ok _ _ => some { valid := true, error := none }
      | MoveRes.illegal =>
        some { valid := false
               error := some ("Illegal move: " ++ move ++ ". Valid moves: "
                 ++ String.intercalate ", " ((E.moves c.pos).take 10) ++ "...") }
      | MoveRes.exn =>
        some { valid := false
               error := some ("Invalid move format: " ++ move
                 ++ ". Use standard algebraic notation (e.g., e4, Nf3, O-O)") }

/-- `winnerPlayerState.score = 1` on the first player matching the id. -/
def setScoreOne : List Player → String → List Player
  | [], _ => []
  | p :: rest, w =>
      if p.id = w then { p with score := 1 } :: rest
      else p :: setScoreOne rest w

/-- `ChessGame.submitMove` (full override of the base class): validate,
apply the move, record it in `moveHistory`; on checkmate set the mover's
score to 1 and finish with the mover as winner; on draw or stalemate
finish with no winner; otherwise advance the turn cursor and increment
`round`. `none` models a thrown `!` assertion. -/
def submitMove {Pos : Type} (E : Engine Pos) (c : ChessState Pos)
    (playerId move : String) (commentary : Option String) :
    Option (SubmitResult × ChessState Pos) :=
  match validateMove E c playerId move with
  | none => none
  | some v =>
    if v.valid = false then
      some ({ success := false, error := v.error, roundCompleted := none }, c)
    else
      match findPlayerById c.base playerId with
      | none => none
      | some player =>
        match E.move c.pos move with
        | MoveRes.exn =>
          some ({ success := false, error := some "Move error: [exception]"
                  roundCompleted := none }, c)
        | MoveRes.illegal =>
          some ({ success := false, error := some "Move failed", roundCompleted := none }, c)
        | MoveRes.ok newPos san =>
          let c1 := { c with
                      pos := newPos
                      moveHistory := c.moveHistory
                        ++ [({ player := player.name, move := san,
                               fen := E.fen newPos, commentary := commentary } : HistEntry)] }
          if E.isCheckmate newPos then
            some ({ success := true, error := none, roundCompleted := some true },
                  { c1 with base := { c1.base with
                      players := setScoreOne c1.base.players playerId
                      status := Status.finished
                      winnerId := some playerId } })
          else if E.isDraw newPos then
            some ({ success := true, error := none, roundCompleted := some true },
                  { c1 with base := { c1.base with status := Status.finished } })
          else if E.isStalemate newPos then
            some ({ success := true, error := none, roundCompleted := some true },
                  { c1 with base := { c1.base with status := Status.finished } })
          else
            some ({ success := true, error := none, roundCompleted := some false },
                  { c1 with
                    currentTurnIndex :=
                      (c.currentTurnIndex + 1) % c1.base.players.length
                    base := { c1.base with round := c1.base.round + 1 } })

end Chess

namespace Arbiter

/-- The arbiter's match-scoped mutable stores: `players` (agent id ↦
wallet), `games` (game id ↦ session state), the `endingGames` guard set,
and a counter of payout invocations (`safeSendTransaction` calls for the
prize). -/
structure ArbState where
  players : List (String × String)
  games : List (String × GameState)
  endingGames : List String
  payouts : Nat
deriving DecidableEq, Repr

/-- `endGame` up to and including the payout invocation (everything before
the first `await` of consequence). Returns the new state and whether the
payout was reached; every early return removes the game from
`endingGames` again. -/
def endGamePhase1 (st : ArbState) (gameId : String) : ArbState × Bool :=
  if st.endingGames.contains gameId then (st, false)
  else
    let st1 := { st with endingGames := st.endingGames ++ [gameId] }
    match alookup st1.games gameId with
    | none => ({ st1 with endingGames := st1.endingGames.filter (fun g => g ≠ gameId) }, false)
    | some gs =>
      match gs.winnerId with
      | none => ({ st1 with endingGames := st1.endingGames.filter (fun g => g ≠ gameId) }, false)
      | some w =>
        match alookup st1.players w with
        | none => ({ st1 with endingGames := st1.endingGames.filter (fun g => g ≠ gameId) }, false)
        | some _ => ({ st1 with payouts := st1.payouts + 1 }, true)

/-- The `finally` block of `endGame`: clear the player registry, evict the
match, release the guard. It runs whether or not the payout succeeded. -/
def endGameCleanup (st : ArbState) (gameId : String) : ArbState :=
  { st with
    players := []
    games := st.games.filter (fun pr => pr.1 ≠ gameId)
    endingGames := st.endingGames.filter (fun g => g ≠ gameId) }

/-- One complete `endGame(gameId)` call (guard check, payout, cleanup). -/
def endGame (st : ArbState) (gameId : String) : ArbState :=
  let res := endGamePhase1 st gameId
  if res.2 then endGameCleanup res.1 gameId else res.1

end Arbiter

namespace Demo

/-- A fixed oracle for concrete runs: clock 0, coin lands heads,
commentary index 0. -/
def o0 : Oracle := { now := 0, flip := true, commentIdx := 0 }

/-- Two registered players. -/
def ps2 : List PlayerIn := [{ id := "p1", name := "P1" }, { id := "p2", name := "P2" }]

/-- Drive one RPS `submitMove`, keeping the old state if the call throws. -/
def stepRPS (s : GameState) (pm : String × String) : GameState :=
  match submitMove RPS.variant s pm.1 pm.2 o0 with
  | some (_, s') => s'
  | none => s

/-- Run a sequence of RPS submissions from a fresh match. -/
def runRPS (ms : List (String × String)) : GameState :=
  ms.foldl stepRPS (initState RPS.CONFIG "g1" ps2)

/-- Drive one coin-flip `submitMove`, keeping the old state on a throw. -/
def stepCF (s : GameState) (pm : String × String) : GameState :=
  match submitMove CoinFlip.variant s pm.1 pm.2 o0 with
  | some (_, s') => s'
  | none => s

/-- Run a sequence of coin-flip submissions from a fresh match. -/
def runCF (ms : List (String × String)) : GameState :=
  ms.foldl stepCF (initState CoinFlip.CONFIG "g1" ps2)

/-- Drive one tic-tac-toe `submitMove`, keeping the old state on a throw. -/
def stepTTT (t : TTT.TTTState) (pm : String × String) : TTT.TTTState :=
  match TTT.submitMove t pm.1 pm.2 with
  | some (_, t') => t'
  | none => t

/-- Run a sequence of tic-tac-toe submissions from a fresh match. -/
def runTTT (ms : List (String × String)) : TTT.TTTState :=
  ms.foldl stepTTT ((TTT.init "g1" ps2).getD
    { base := initState TTT.CONFIG "g1" ps2, board := List.replicate 9 none,
      roundsWon := [], playerSymbols := [], currentTurnIndex := 0 })

/-- Five straight rock-beats-scissors rounds: P1 reaches score 5 and the
match finishes. -/
def rpsFinished : GameState :=
  runRPS [("p1", "rock"), ("p2", "scissors"), ("p1", "rock"), ("p2", "scissors"),
          ("p1", "rock"), ("p2", "scissors"), ("p1", "rock"), ("p2", "scissors"),
          ("p1", "rock"), ("p2", "scissors")]

/-- Five straight tied rounds (both play rock): nobody scores, the round
counter alone ends the match. -/
def rpsAllTies : GameState :=
  runRPS [("p1", "rock"), ("p2", "rock"), ("p1", "rock"), ("p2", "rock"),
          ("p1", "rock"), ("p2", "rock"), ("p1", "rock"), ("p2", "rock"),
          ("p1", "rock"), ("p2", "rock")]

/-- A coin-flip match state in which one player holds exactly 3 points,
the threshold named by the game's own win condition. -/
def cfScore3 : GameState :=
  { initState CoinFlip.CONFIG "g1" ps2 with
    players := [{ id := "p1", name := "P1", score := 3 },
                { id := "p2", name := "P2", score := 0 }]
    round := 2 }

/-- An RPS match state in which one player holds exactly 5 points. -/
def rpsScore5 : GameState :=
  { initState RPS.CONFIG "g1" ps2 with
    players := [{ id := "p1", name := "P1", score := 5 },
                { id := "p2", name := "P2", score := 0 }]
    round := 8 }

/-- Fresh RPS match. -/
def rps0 : GameState := initState RPS.CONFIG "g1" ps2

/-- RPS match after P1 played the mixed-case move `Rock`. -/
def rpsAfterRock : GameState := runRPS [("p1", "Rock")]

/-- Tic-tac-toe board after X plays 1, 4 and O plays 2, 5, with X's next
mark placed at position 7 (index 6): the left column is complete. -/
def winBoard : List (Option String) :=
  (runTTT [("p1", "1"), ("p2", "2"), ("p1", "4"), ("p2", "5")]).board.set 6 (some "X")

/-- Tic-tac-toe match after the full scenario 1, 2, 4, 5, 7. -/
def tttScenario : TTT.TTTState :=
  runTTT [("p1", "1"), ("p2", "2"), ("p1", "4"), ("p2", "5"), ("p1", "7")]

/-- The fresh tic-tac-toe state produced by the constructor on `ps2`. -/
def ttt0 : TTT.TTTState :=
  { base := initState TTT.CONFIG "g1" ps2
    board := List.replicate 9 none
    roundsWon := [("p1", 0), ("p2", 0)]
    playerSymbols := [("p1", "X"), ("p2", "O")]
    currentTurnIndex := 0 }

/-- A trivial engine instance used to exercise the chess embedding at a
concrete type. -/
def unitEngine : Chess.Engine Unit :=
  { start := ()
    move := fun _ _ => Chess.MoveRes.illegal
    moves := fun _ => []
    isCheckmate := fun _ => false
    isCheck := fun _ => false
    isDraw := fun _ => false
    isStalemate := fun _ => false
    isOver := fun _ => false
    fen := fun _ => "" }

/-- An arbiter state holding one registered winner wallet and one finished
match, with settlement not yet begun. -/
def arb0 : Arbiter.ArbState :=
  { players := [("p1", "wallet1")]
    games := [("g1", rpsFinished)]
    endingGames := []
    payouts := 0 }

end Demo

/-!
## Claims

Each claim of the specification is settled by exactly one theorem below
(plus, where required, a witness or counterexample).
-/

/-- Claim C1 (code bug): a resolved round with a winner is claimed to
increment exactly one player's score by exactly 1, in particular for coin
flip. In fact a coin-flip round win increments the winner's score by 2:
once in `CoinFlipGame.evaluateRound` (`winner.score++`) and once more in
`BaseGame.submitMove`. An RPS round win does increment by exactly 1. -/
theorem c1_coinflip_win_double_score :
    (Demo.runCF [("p1", "heads"), ("p2", "tails")]).history.map RoundResult.winnerId
      = [some "p1"]
    ∧ (Demo.runCF [("p1", "heads"), ("p2", "tails")]).players.map (fun p => (p.id, p.score))
      = [("p1", 2), ("p2", 0)]
    ∧ (Demo.runRPS [("p1", "rock"), ("p2", "scissors")]).players.map (fun p => (p.id, p.score))
      = [("p1", 1), ("p2", 0)] := by decide

/-- Claim C2 (code bug): the round counter is claimed to start at 0 and
grow by exactly 1 per resolved round (`round = 2` after rock/scissors then
paper/paper). It starts at 0, and the history does hold one record per
resolved round, but each resolution increments `round` twice — once in
`evaluateRound` and once in `BaseGame.submitMove` — so the scenario ends
with `round = 4`. -/
theorem c2_rps_round_double_increment :
    Demo.rps0.round = 0
    ∧ (Demo.runRPS [("p1", "rock"), ("p2", "scissors"),
        ("p1", "paper"), ("p2", "paper")]).round = 4
    ∧ (Demo.runRPS [("p1", "rock"), ("p2", "scissors"),
        ("p1", "paper"), ("p2", "paper")]).history.length = 2 := by decide

/-- Claim C3 (code bug): the completion threshold is claimed to be
`ceil(maxRounds / 2)` — 5 for RPS and 3 for coin flip, the latter matching
the game's own win condition string. RPS indeed finishes at score 5, but
`CoinFlipGame.isGameOver` uses `ceil(maxRounds / 2) + 1 = 4`: a coin-flip
state with a score of 3 is not over and has no winner, contradicting the
game's own `"First to 3 wins"`. -/
theorem c3_coinflip_threshold_four :
    CoinFlip.CONFIG.winCondition = "First to 3 wins"
    ∧ Demo.cfScore3.players.map (fun p => (p.id, p.score)) = [("p1", 3), ("p2", 0)]
    ∧ CoinFlip.isGameOver Demo.cfScore3 = false
    ∧ CoinFlip.getWinner Demo.cfScore3 = none
    ∧ RPS.isGameOver Demo.rpsScore5 = true
    ∧ RPS.getWinner Demo.rpsScore5 = some "p1" := by decide

/-- Claim C4 counterexample: the claim says that once `status = finished`
every further `submitMove` is rejected and leaves the state unchanged.
After five straight P1 wins the match is finished with an empty pending
set, yet a fresh valid move is accepted (`success = true`) and recorded in
the pending-move map. -/
theorem c4_finished_match_accepts_move :
    Demo.rpsFinished.status = Status.finished
    ∧ Demo.rpsFinished.currentMoves = []
    ∧ (submitMove RPS.variant Demo.rpsFinished "p2" "rock" Demo.o0).map
        (fun rs => (rs.1.success, rs.1.error, rs.2.currentMoves))
      = some (true, none, [("p2", "rock")]) := by decide

/-- Claim C5 counterexample: `round` is claimed never to exceed
`maxRounds`. An all-ties RPS match (both always play rock) ends with
`round = 10` against `maxRounds = 9`. -/
theorem c5_round_exceeds_maxrounds :
    Demo.rpsAllTies.maxRounds = 9
    ∧ Demo.rpsAllTies.round = 10
    ∧ Demo.rpsAllTies.maxRounds < Demo.rpsAllTies.round := by decide

/-- Claim C4, amended: none of the game variants checks `status` in
`validateMove`, so the state machine itself keeps accepting moves after
the match finished. In a finished simultaneous-game match with an empty
pending set, any syntactically valid move that passes validation is
accepted with `success = true` and recorded in the pending-move map;
finished matches stop receiving moves only because the orchestrator
evicts them after settlement. -/
theorem c4_amended_no_status_check :
    ∀ (s : GameState) (pid mv : String) (o : Oracle),
      s.status = Status.finished →
      s.currentMoves = [] →
      s.players.length = 2 →
      (((RPS.validateMove s pid mv).valid = true →
          submitMove RPS.variant s pid mv o
            = some ({ success := true, error := none, roundCompleted := some false },
                    { s with currentMoves := [(pid, mv)] }))
        ∧ ((CoinFlip.validateMove s pid mv).valid = true →
          submitMove CoinFlip.variant s pid mv o
            = some ({ success := true, error := none, roundCompleted := some false },
                    { s with currentMoves := [(pid, mv)] }))) := by
  intro s pid mv o _hst hcm hpl
  constructor <;> intro hv <;>
    simp [submitMove, RPS.variant, CoinFlip.variant, hv, hcm, hpl, aset]

/-- Witness for the amended claim C4 at a concrete finished match. -/
theorem c4_amended_witness :
    submitMove RPS.variant Demo.rpsFinished "p2" "rock" Demo.o0
      = some ({ success := true, error := none, roundCompleted := some false },
              { Demo.rpsFinished with currentMoves := [("p2", "rock")] }) :=
  (c4_amended_no_status_check Demo.rpsFinished "p2" "rock" Demo.o0
    (by decide) (by decide) (by decide)).1 (by decide)

@[simp] theorem alookup_nil {α : Type} (key : String) :
    alookup ([] : List (String × α)) key = none := rfl

@[simp] theorem alookup_cons {α : Type} (k : String) (v : α)
    (rest : List (String × α)) (key : String) :
    alookup ((k, v) :: rest) key = if k = key then some v else alookup rest key := rfl

/-- Looking up a key after filtering it out yields nothing. -/
theorem alookup_filter_ne (gid : String) :
    ∀ l : List (String × GameState), alookup (l.filter (fun pr => pr.1 ≠ gid)) gid = none := by
  intro l
  induction l with
  | nil => rfl
  | cons a tl ih =>
    obtain ⟨k, v⟩ := a
    rw [List.filter_cons]
    by_cases h : k = gid
    · simp only [h]
      simpa using ih
    · simp only [h]
      simpa [h] using ih

/-- Appending a key makes it contained. -/
theorem contains_append_self (l : List String) (gid : String) :
    (l ++ [gid]).contains gid = true := by
  induction l with
  | nil => simp [List.contains_cons]
  | cons a tl ih => simp [List.contains_cons, ih]

/-- When the game registry has no entry for the id, `endGame` never
reaches the payout, whichever way the guard check goes. -/
theorem endGame_payouts_of_no_game (st : Arbiter.ArbState) (gid : String)
    (hg : alookup st.games gid = none) :
    (Arbiter.endGame st gid).payouts = st.payouts := by
  unfold Arbiter.endGame Arbiter.endGamePhase1
  by_cases hc : gid ∈ st.endingGames
  · simp [hc]
  · simp [hc, hg]

/-- Claim C6 (confirmed): for a completed match (registered winner, game
still in the registry, settlement not yet begun), running the settlement
logic twice produces exactly one payout invocation. The first call pays
and then evicts the match; a second full call is stopped by the failed
game lookup, and a second call that starts while the first is still
settling is stopped by the `endingGames` guard set and changes nothing. -/
theorem c6_settlement_idempotent :
    ∀ (st : Arbiter.ArbState) (gid w wallet : String) (gs : GameState),
      st.endingGames.contains gid = false →
      alookup st.games gid = some gs →
      gs.winnerId = some w →
      alookup st.players w = some wallet →
      (Arbiter.endGame st gid).payouts = st.payouts + 1
      ∧ (Arbiter.endGame (Arbiter.endGame st gid) gid).payouts = st.payouts + 1
      ∧ Arbiter.endGamePhase1 (Arbiter.endGamePhase1 st gid).1 gid
          = ((Arbiter.endGamePhase1 st gid).1, false) := by
  intro st gid w wallet gs h1 h2 h3 h4
  have h1' : ¬(st.endingGames.contains gid = true) := by
    intro hcontra
    rw [h1] at hcontra
    exact Bool.false_ne_true hcontra
  have hp1 : Arbiter.endGamePhase1 st gid
      = ({ st with endingGames := st.endingGames ++ [gid], payouts := st.payouts + 1 },
         true) := by
    unfold Arbiter.endGamePhase1
    rw [if_neg h1']
    simp [h2, h3, h4]
  have hg1 : Arbiter.endGame st gid
      = { players := []
          games := st.games.filter (fun pr => pr.1 ≠ gid)
          endingGames := (st.endingGames ++ [gid]).filter (fun g => g ≠ gid)
          payouts := st.payouts + 1 } := by
    simp [Arbiter.endGame, hp1, Arbiter.endGameCleanup]
  refine ⟨by rw [hg1], ?_, ?_⟩
  · rw [hg1, endGame_payouts_of_no_game _ _ (alookup_filter_ne gid st.games)]
  · rw [hp1]
    unfold Arbiter.endGamePhase1
    rw [if_pos]
    simp

/-- Witness for claim C6 at a concrete arbiter state holding one finished
match. -/
theorem c6_settlement_idempotent_witness :
    (Arbiter.endGame Demo.arb0 "g1").payouts = Demo.arb0.payouts + 1
    ∧ (Arbiter.endGame (Arbiter.endGame Demo.arb0 "g1") "g1").payouts
        = Demo.arb0.payouts + 1
    ∧ Arbiter.endGamePhase1 (Arbiter.endGamePhase1 Demo.arb0 "g1").1 "g1"
        = ((Arbiter.endGamePhase1 Demo.arb0 "g1").1, false) :=
  c6_settlement_idempotent Demo.arb0 "g1" "p1" "wallet1" Demo.rpsFinished
    (by decide) (by decide) (by decide) (by decide)

/-- A string with a nonempty left part is nonempty. -/
theorem append_ne_empty_left (a b : String) (h : a.length ≠ 0) : (a ++ b) ≠ "" := by
  intro hab
  have h2 : (a ++ b).length = 0 := by rw [hab]; rfl
  rw [String.length_append] at h2
  omega

/-- Three appended parts with a nonempty first part are nonempty. -/
theorem app3_ne_empty (a b c : String) (h : a.length ≠ 0) : (a ++ b ++ c) ≠ "" :=
  append_ne_empty_left (a ++ b) c (by rw [String.length_append]; omega)

/-- Five appended parts with a nonempty first part are nonempty. -/
theorem app5_ne_empty (a b c d e : String) (h : a.length ≠ 0) :
    (a ++ b ++ c ++ d ++ e) ≠ "" :=
  append_ne_empty_left (a ++ b ++ c ++ d) e
    (by rw [String.length_append, String.length_append, String.length_append]; omega)

/-- Every rejection produced by `RPS.validateMove` carries a nonempty
reason string. -/
theorem rps_invalid_error_ne (s : GameState) (pid mv : String)
    (h : (RPS.validateMove s pid mv).valid = false) :
    ∃ e, (RPS.validateMove s pid mv).error = some e ∧ e ≠ "" := by
  revert h
  unfold RPS.validateMove
  by_cases h1 : (RPS.validMoves.contains (jsToLowerCase mv)) = false
  · rw [if_pos h1]
    intro _
    exact ⟨_, rfl, by decide⟩
  · rw [if_neg h1]
    cases hf : findPlayerById s pid with
    | none =>
      intro _
      exact ⟨_, rfl, by decide⟩
    | some p =>
      by_cases h2 : ahas s.currentMoves pid = true
      · rw [if_pos h2]
        intro _
        exact ⟨_, rfl, by decide⟩
      · rw [if_neg h2]
        intro h
        simp at h

/-- Every rejection produced by `CoinFlip.validateMove` carries a nonempty
reason string. -/
theorem cf_invalid_error_ne (s : GameState) (pid mv : String)
    (h : (CoinFlip.validateMove s pid mv).valid = false) :
    ∃ e, (CoinFlip.validateMove s pid mv).error = some e ∧ e ≠ "" := by
  revert h
  unfold CoinFlip.validateMove
  by_cases h1 : (CoinFlip.validMoves.contains (jsToLowerCase mv)) = false
  · rw [if_pos h1]
    intro _
    exact ⟨_, rfl, by decide⟩
  · rw [if_neg h1]
    cases hf : findPlayerById s pid with
    | none =>
      intro _
      exact ⟨_, rfl, by decide⟩
    | some p =>
      by_cases h2 : ahas s.currentMoves pid = true
      · rw [if_pos h2]
        intro _
        exact ⟨_, rfl, by decide⟩
      · rw [if_neg h2]
        intro h
        simp at h

/-- Every rejection produced by `TTT.validateMove` carries a nonempty
reason string. -/
theorem ttt_invalid_error_ne (t : TTT.TTTState) (pid mv : String)
    (v : MoveValidation) (hval : TTT.validateMove t pid mv = some v)
    (hv : v.valid = false) : ∃ e, v.error = some e ∧ e ≠ "" := by
  unfold TTT.validateMove at hval
  repeat' split at hval
  all_goals
    first
    | exact Option.noConfusion hval
    | (obtain rfl := Option.some.inj hval
       first
       | exact ⟨_, rfl, by decide⟩
       | exact ⟨_, rfl, append_ne_empty_left _ _ (by decide)⟩
       | exact ⟨_, rfl, app3_ne_empty _ _ _ (by decide)⟩
       | simp at hv)

/-- Every rejection produced by `Chess.validateMove` carries a nonempty
reason string. -/
theorem chess_invalid_error_ne {Pos : Type} (E : Chess.Engine Pos)
    (c : Chess.ChessState Pos) (pid mv : String)
    (v : MoveValidation) (hval : Chess.validateMove E c pid mv = some v)
    (hv : v.valid = false) : ∃ e, v.error = some e ∧ e ≠ "" := by
  unfold Chess.validateMove at hval
  repeat' split at hval
  all_goals
    first
    | exact Option.noConfusion hval
    | (obtain rfl := Option.some.inj hval
       first
       | exact ⟨_, rfl, by decide⟩
       | exact ⟨_, rfl, append_ne_empty_left _ _ (by decide)⟩
       | exact ⟨_, rfl, app3_ne_empty _ _ _ (by decide)⟩
       | exact ⟨_, rfl, app5_ne_empty _ _ _ _ _ (by decide)⟩
       | simp at hv)

/-- Claim C7 (confirmed): a `submitMove` whose validation fails returns
`success = false` with the validation's nonempty reason string and the
state is returned unchanged — for the base implementation shared by the
simultaneous games and for the tic-tac-toe and chess overrides alike. -/
theorem c7_invalid_move_rejected_state_unchanged :
    (∀ (g : GameVariant) (s : GameState) (pid mv : String) (o : Oracle),
      (g.validateMove s pid mv).valid = false →
      submitMove g s pid mv o
        = some ({ success := false, error := (g.validateMove s pid mv).error,
                  roundCompleted := none }, s))
    ∧ (∀ (s : GameState) (pid mv : String),
        (RPS.validateMove s pid mv).valid = false →
        ∃ e, (RPS.validateMove s pid mv).error = some e ∧ e ≠ "")
    ∧ (∀ (s : GameState) (pid mv : String),
        (CoinFlip.validateMove s pid mv).valid = false →
        ∃ e, (CoinFlip.validateMove s pid mv).error = some e ∧ e ≠ "")
    ∧ (∀ (t : TTT.TTTState) (pid mv : String) (v : MoveValidation),
        TTT.validateMove t pid mv = some v → v.valid = false →
        TTT.submitMove t pid mv
          = some ({ success := false, error := v.error, roundCompleted := none }, t)
        ∧ ∃ e, v.error = some e ∧ e ≠ "")
    ∧ (∀ (Pos : Type) (E : Chess.Engine Pos) (c : Chess.ChessState Pos)
        (pid mv : String) (cm : Option String) (v : MoveValidation),
        Chess.validateMove E c pid mv = some v → v.valid = false →
        Chess.submitMove E c pid mv cm
          = some ({ success := false, error := v.error, roundCompleted := none }, c)
        ∧ ∃ e, v.error = some e ∧ e ≠ "") := by
  refine ⟨?_, rps_invalid_error_ne, cf_invalid_error_ne, ?_, ?_⟩
  · intro g s pid mv o h
    simp [submitMove, h]
  · intro t pid mv v hval hv
    exact ⟨by simp [TTT.submitMove, hval, hv], ttt_invalid_error_ne t pid mv v hval hv⟩
  · intro Pos E c pid mv cm v hval hv
    exact ⟨by simp [Chess.submitMove, hval, hv],
           chess_invalid_error_ne E c pid mv v hval hv⟩

/-- Witness for claim C7: a concrete invalid RPS move is rejected with the
state unchanged. -/
theorem c7_witness :
    submitMove RPS.variant Demo.rps0 "p1" "banana" Demo.o0
      = some ({ success := false,
                error := (RPS.variant.validateMove Demo.rps0 "p1" "banana").error,
                roundCompleted := none }, Demo.rps0) :=
  c7_invalid_move_rejected_state_unchanged.1 RPS.variant Demo.rps0 "p1" "banana"
    Demo.o0 (by decide)

/-- `lineWins` on a three-cell line holds a symbol exactly when all three
cells hold that symbol. -/
theorem lineWins_some_iff (board : List (Option String)) (a b c : Nat) (x : String) :
    TTT.lineWins board [a, b, c] = some x
      ↔ TTT.cell board a = some x ∧ TTT.cell board b = some x ∧ TTT.cell board c = some x := by
  cases h : TTT.cell board a with
  | none => simp [TTT.lineWins, h]
  | some y =>
    simp only [TTT.lineWins, h]
    by_cases hbc : TTT.cell board b = some y ∧ TTT.cell board c = some y
    · rw [if_pos hbc]
      constructor
      · intro hyx
        obtain rfl := Option.some.inj hyx
        exact ⟨rfl, hbc.1, hbc.2⟩
      · intro ⟨hax, _, _⟩
        exact hax.symm ▸ rfl
    · rw [if_neg hbc]
      constructor
      · intro hcontra
        exact absurd hcontra (by simp)
      · intro ⟨hax, hbx, hcx⟩
        obtain rfl := Option.some.inj hax
        exact absurd ⟨hbx, hcx⟩ hbc

/-- Whatever `checkWinnerAux` returns is a winning line from its input
list. -/
theorem checkWinnerAux_some (board : List (Option String)) :
    ∀ (ls : List (List Nat)) (x : String) (l : List Nat),
      TTT.checkWinnerAux board ls = some (x, l) →
      l ∈ ls ∧ TTT.lineWins board l = some x := by
  intro ls
  induction ls with
  | nil => intro x l h; exact Option.noConfusion h
  | cons hd tl ih =>
    intro x l h
    unfold TTT.checkWinnerAux at h
    cases hw : TTT.lineWins board hd with
    | some y =>
      rw [hw] at h
      obtain ⟨rfl, rfl⟩ := Prod.mk.injEq .. ▸ Option.some.inj h
      exact ⟨List.mem_cons_self _ _, hw⟩
    | none =>
      rw [hw] at h
      obtain ⟨hmem, hwin⟩ := ih x l h
      exact ⟨List.mem_cons_of_mem _ hmem, hwin⟩

/-- If some line of the input list wins, `checkWinnerAux` reports a win. -/
theorem checkWinnerAux_isSome (board : List (Option String)) :
    ∀ (ls : List (List Nat)), (∃ l ∈ ls, ∃ x, TTT.lineWins board l = some x) →
      (TTT.checkWinnerAux board ls).isSome = true := by
  intro ls
  induction ls with
  | nil => rintro ⟨l, hmem, _⟩; exact absurd hmem (List.not_mem_nil l)
  | cons hd tl ih =>
    rintro ⟨l, hmem, x, hwin⟩
    unfold TTT.checkWinnerAux
    cases hw : TTT.lineWins board hd with
    | some y => rfl
    | none =>
      rcases List.mem_cons.mp hmem with rfl | hmem'
      · rw [hwin] at hw
        exact Option.noConfusion hw
      · exact ih ⟨l, hmem', x, hwin⟩

/-- Claim C8 (confirmed): a tic-tac-toe sub-round win is detected exactly
when one of the 8 lines of `WIN_LINES` carries three equal non-empty
symbols, and `checkWinner` reports such a line with its symbol; in the
concrete scenario 1, 2, 4, 5, 7 the X player completes the left column,
`checkWinner` reports `("X", [0, 3, 6])`, and the X player's score and
sub-round tally are credited. -/
theorem c8_tictactoe_win_lines :
    (∀ board : List (Option String),
      ((TTT.checkWinner board).isSome = true
        ↔ ∃ l ∈ TTT.WIN_LINES, ∃ x, ∀ i ∈ l, TTT.cell board i = some x)
      ∧ (∀ (x : String) (l : List Nat), TTT.checkWinner board = some (x, l) →
          l ∈ TTT.WIN_LINES ∧ ∀ i ∈ l, TTT.cell board i = some x))
    ∧ TTT.checkWinner Demo.winBoard = some ("X", [0, 3, 6])
    ∧ Demo.tttScenario.base.players.map (fun p => (p.id, p.score)) = [("p1", 1), ("p2", 0)]
    ∧ Demo.tttScenario.roundsWon = [("p1", 1), ("p2", 0)]
    ∧ Demo.tttScenario.base.round = 1 := by
  refine ⟨?_, by decide, by decide, by decide, by decide⟩
  intro board
  constructor
  · constructor
    · intro hsome
      obtain ⟨⟨x, l⟩, hw⟩ := Option.isSome_iff_exists.mp hsome
      obtain ⟨hmem, hwin⟩ := checkWinnerAux_some board TTT.WIN_LINES x l hw
      refine ⟨l, hmem, x, ?_⟩
      fin_cases hmem <;>
        · obtain ⟨ha, hb, hc⟩ := (lineWins_some_iff board _ _ _ x).mp hwin
          intro i hi
          fin_cases hi <;> assumption
    · rintro ⟨l, hmem, x, hall⟩
      apply checkWinnerAux_isSome
      refine ⟨l, hmem, x, ?_⟩
      fin_cases hmem <;>
        · rw [lineWins_some_iff]
          refine ⟨?_, ?_, ?_⟩ <;> apply hall <;> simp
  · intro x l hw
    obtain ⟨hmem, hwin⟩ := checkWinnerAux_some board TTT.WIN_LINES x l hw
    refine ⟨hmem, ?_⟩
    fin_cases hmem <;>
      · obtain ⟨ha, hb, hc⟩ := (lineWins_some_iff board _ _ _ x).mp hwin
        intro i hi
        fin_cases hi <;> assumption

/-- Witness for claim C8: the reported-line implication evaluated on the
concrete winning board of the scenario. -/
theorem c8_witness :
    [0, 3, 6] ∈ TTT.WIN_LINES ∧ ∀ i ∈ [0, 3, 6], TTT.cell Demo.winBoard i = some "X" :=
  (c8_tictactoe_win_lines.1 Demo.winBoard).2 "X" [0, 3, 6] (by decide)

/-- Second components of equal optional pairs are equal. -/
theorem some_pair_snd {α β : Type} {a r : α} {b s : β}
    (h : some (a, b) = some (r, s)) : b = s :=
  congrArg Prod.snd (Option.some.inj h)

/-- A boolean that is not true is false. -/
theorem bfalse {b : Bool} (h : ¬b = true) : b = false := by
  cases b
  · rfl
  · exact absurd rfl h

/-- Shape of a successful `BaseGame.submitMove`: the state is unchanged
(rejection), or only the pending map changed (waiting for the opponent),
or the match was just marked finished, or the completion check just came
back negative. -/
theorem submit_shape (g : GameVariant) {s s' : GameState} {r : SubmitResult}
    {pid mv : String} {o : Oracle}
    (hsub : submitMove g s pid mv o = some (r, s')) :
    s' = s
    ∨ (s'.status = s.status ∧ s'.round = s.round ∧ s'.maxRounds = s.maxRounds)
    ∨ s'.status = Status.finished
    ∨ g.isGameOver s' = false := by
  simp only [submitMove] at hsub
  split at hsub
  · obtain rfl := some_pair_snd hsub
    exact Or.inl rfl
  · split at hsub
    · split at hsub
      · exact Option.noConfusion hsub
      · obtain rfl := some_pair_snd hsub
        split
        · exact Or.inr (Or.inr (Or.inl rfl))
        · next h => exact Or.inr (Or.inr (Or.inr (bfalse h)))
    · obtain rfl := some_pair_snd hsub
      exact Or.inr (Or.inl ⟨rfl, rfl, rfl⟩)

/-- If the RPS completion check is negative, the round counter is below
the cap (the check's second disjunct is `round >= maxRounds`). -/
theorem rps_not_over_round_lt (t : GameState) (h : RPS.isGameOver t = false) :
    t.round < t.maxRounds := by
  unfold RPS.isGameOver at h
  rcases Bool.or_eq_false_iff.mp h with ⟨-, h2⟩
  have := of_decide_eq_false h2
  omega

/-- If the coin-flip completion check is negative, the round counter is
below the cap. -/
theorem cf_not_over_round_lt (t : GameState) (h : CoinFlip.isGameOver t = false) :
    t.round < t.maxRounds := by
  unfold CoinFlip.isGameOver at h
  rcases Bool.or_eq_false_iff.mp h with ⟨-, h2⟩
  have := of_decide_eq_false h2
  omega

/-- If the tic-tac-toe completion check is negative, the round counter is
below the cap. -/
theorem ttt_not_over_round_lt (t : TTT.TTTState) (h : TTT.isGameOver t = false) :
    t.base.round < t.base.maxRounds := by
  unfold TTT.isGameOver at h
  rcases Bool.or_eq_false_iff.mp h with ⟨-, h2⟩
  have := of_decide_eq_false h2
  omega

/-- Shape of a successful tic-tac-toe `submitMove`: the history is never
touched, and the resulting state is unchanged, or changed only outside
the inherited bookkeeping, or just finished, or failed its completion
check. -/
theorem ttt_submit_shape {t t' : TTT.TTTState} {r : SubmitResult} {pid mv : String}
    (hsub : TTT.submitMove t pid mv = some (r, t')) :
    t'.base.history = t.base.history
    ∧ (t'.base = t.base
       ∨ t'.base.status = Status.finished
       ∨ TTT.isGameOver t' = false) := by
  simp only [TTT.submitMove] at hsub
  split at hsub
  · exact Option.noConfusion hsub
  · split at hsub
    · obtain rfl := some_pair_snd hsub
      exact ⟨rfl, Or.inl rfl⟩
    · split at hsub
      · exact Option.noConfusion hsub
      · split at hsub
        · exact Option.noConfusion hsub
        · split at hsub
          · -- sub-round completed
            rename_i hwin
            split at hsub
            · exact Option.noConfusion hsub
            · rename_i t2 hcredit
              have ht2 : t2.base.history = t.base.history := by
                split at hcredit
                · split at hcredit
                  · exact Option.noConfusion hcredit
                  · obtain rfl := Option.some.inj hcredit
                    rfl
                · obtain rfl := Option.some.inj hcredit
                  rfl
              split at hsub
              · split at hsub
                · exact Option.noConfusion hsub
                · obtain rfl := some_pair_snd hsub
                  exact ⟨ht2, Or.inr (Or.inl rfl)⟩
              · rename_i hnotover
                obtain rfl := some_pair_snd hsub
                exact ⟨ht2, Or.inr (Or.inr (bfalse hnotover))⟩
          · -- ordinary move, turn advances
            obtain rfl := some_pair_snd hsub
            exact ⟨rfl, Or.inl rfl⟩

/-- A successful chess `submitMove` never touches the inherited history
list (only the private `moveHistory`). -/
theorem chess_submit_history {Pos : Type} {E : Chess.Engine Pos}
    {c c' : Chess.ChessState Pos} {r : SubmitResult} {pid mv : String}
    {cm : Option String}
    (hsub : Chess.submitMove E c pid mv cm = some (r, c')) :
    c'.base.history = c.base.history := by
  simp only [Chess.submitMove] at hsub
  split at hsub
  · exact Option.noConfusion hsub
  · split at hsub
    · obtain rfl := some_pair_snd hsub
      rfl
    · split at hsub
      · exact Option.noConfusion hsub
      · split at hsub
        · obtain rfl := some_pair_snd hsub
          rfl
        · obtain rfl := some_pair_snd hsub
          rfl
        · split at hsub
          · obtain rfl := some_pair_snd hsub
            rfl
          · split at hsub
            · obtain rfl := some_pair_snd hsub
              rfl
            · split at hsub
              · obtain rfl := some_pair_snd hsub
                rfl
              · obtain rfl := some_pair_snd hsub
                rfl

/-- After any round-resolving `BaseGame.submitMove`, a positive completion
check comes with `status = finished`: the check runs as part of the
resolution. -/
theorem submit_completion_check (g : GameVariant) {s s' : GameState}
    {r : SubmitResult} {pid mv : String} {o : Oracle}
    (hsub : submitMove g s pid mv o = some (r, s'))
    (hrc : r.roundCompleted = some true) (hov : g.isGameOver s' = true) :
    s'.status = Status.finished := by
  simp only [submitMove] at hsub
  split at hsub
  · have hr1 := congrArg Prod.fst (Option.some.inj hsub)
    dsimp only at hr1
    rw [← hr1] at hrc
    exact Option.noConfusion hrc
  · split at hsub
    · split at hsub
      · exact Option.noConfusion hsub
      · obtain rfl := some_pair_snd hsub
        split
        · rfl
        · rename_i hnotover
          rw [if_neg hnotover] at hov
          exact absurd hov hnotover
    · have hr1 := congrArg Prod.fst (Option.some.inj hsub)
      dsimp only at hr1
      rw [← hr1] at hrc
      exact Bool.noConfusion (Option.some.inj hrc)

/-- After any sub-round-resolving tic-tac-toe `submitMove`, a positive
completion check comes with `status = finished`. -/
theorem ttt_completion_check {t t' : TTT.TTTState} {r : SubmitResult}
    {pid mv : String}
    (hsub : TTT.submitMove t pid mv = some (r, t'))
    (hrc : r.roundCompleted = some true) (hov : TTT.isGameOver t' = true) :
    t'.base.status = Status.finished := by
  simp only [TTT.submitMove] at hsub
  split at hsub
  · exact Option.noConfusion hsub
  · split at hsub
    · have hr1 := congrArg Prod.fst (Option.some.inj hsub)
      dsimp only at hr1
      rw [← hr1] at hrc
      exact Option.noConfusion hrc
    · split at hsub
      · exact Option.noConfusion hsub
      · split at hsub
        · exact Option.noConfusion hsub
        · split at hsub
          · split at hsub
            · exact Option.noConfusion hsub
            · split at hsub
              · split at hsub
                · exact Option.noConfusion hsub
                · obtain rfl := some_pair_snd hsub
                  rfl
              · rename_i hnotover
                obtain rfl := some_pair_snd hsub
                exact absurd hov hnotover
          · have hr1 := congrArg Prod.fst (Option.some.inj hsub)
            dsimp only at hr1
            rw [← hr1] at hrc
            exact Bool.noConfusion (Option.some.inj hrc)

/-- The reachable states of an RPS match: the fresh constructor state and
everything a successful `submitMove` produces from a reachable state. -/
inductive ReachRPS : GameState → Prop where
  | init (gid : String) (ps : List PlayerIn) : ReachRPS (initState RPS.CONFIG gid ps)
  | step {s : GameState} {r : SubmitResult} {s' : GameState}
      (pid mv : String) (o : Oracle) : ReachRPS s →
      submitMove RPS.variant s pid mv o = some (r, s') → ReachRPS s'

/-- The reachable states of a coin-flip match. -/
inductive ReachCF : GameState → Prop where
  | init (gid : String) (ps : List PlayerIn) : ReachCF (initState CoinFlip.CONFIG gid ps)
  | step {s : GameState} {r : SubmitResult} {s' : GameState}
      (pid mv : String) (o : Oracle) : ReachCF s →
      submitMove CoinFlip.variant s pid mv o = some (r, s') → ReachCF s'

/-- The reachable states of a tic-tac-toe match. -/
inductive ReachTTT : TTT.TTTState → Prop where
  | init (gid : String) (ps : List PlayerIn) (t : TTT.TTTState) :
      TTT.init gid ps = some t → ReachTTT t
  | step {t : TTT.TTTState} {r : SubmitResult} {t' : TTT.TTTState}
      (pid mv : String) : ReachTTT t →
      TTT.submitMove t pid mv = some (r, t') → ReachTTT t'

/-- The reachable states of a chess match over an arbitrary engine. -/
inductive ReachChess {Pos : Type} (E : Chess.Engine Pos) : Chess.ChessState Pos → Prop where
  | init (gid : String) (ps : List PlayerIn) : ReachChess E (Chess.init E gid ps)
  | step {c : Chess.ChessState Pos} {r : SubmitResult} {c' : Chess.ChessState Pos}
      (pid mv : String) (cm : Option String) : ReachChess E c →
      Chess.submitMove E c pid mv cm = some (r, c') → ReachChess E c'

/-- Round bound along RPS reachability: an active reachable state has
`round < maxRounds`. -/
theorem reachRPS_round_lt : ∀ s, ReachRPS s → s.status = Status.active →
    s.round < s.maxRounds := by
  intro s h
  induction h with
  | init gid ps =>
    intro _
    show (0 : Nat) < 9
    decide
  | step pid mv o hr hsub ih =>
    rcases submit_shape RPS.variant hsub with rfl | ⟨h1, h2, h3⟩ | hfin | hnot
    · exact ih
    · intro hact
      rw [h2, h3]
      exact ih (h1 ▸ hact)
    · intro hact
      rw [hfin] at hact
      exact absurd hact (by decide)
    · intro _
      exact rps_not_over_round_lt _ hnot

/-- Round bound along coin-flip reachability. -/
theorem reachCF_round_lt : ∀ s, ReachCF s → s.status = Status.active →
    s.round < s.maxRounds := by
  intro s h
  induction h with
  | init gid ps =>
    intro _
    show (0 : Nat) < 5
    decide
  | step pid mv o hr hsub ih =>
    rcases submit_shape CoinFlip.variant hsub with rfl | ⟨h1, h2, h3⟩ | hfin | hnot
    · exact ih
    · intro hact
      rw [h2, h3]
      exact ih (h1 ▸ hact)
    · intro hact
      rw [hfin] at hact
      exact absurd hact (by decide)
    · intro _
      exact cf_not_over_round_lt _ hnot

/-- Round bound along tic-tac-toe reachability. -/
theorem reachTTT_round_lt : ∀ t, ReachTTT t → t.base.status = Status.active →
    t.base.round < t.base.maxRounds := by
  intro t h
  induction h with
  | init gid ps t hinit =>
    cases ps with
    | nil => exact Option.noConfusion hinit
    | cons p0 tl =>
      cases tl with
      | nil => exact Option.noConfusion hinit
      | cons p1 tl' =>
        obtain rfl := Option.some.inj hinit
        intro _
        show (0 : Nat) < 3
        decide
  | step pid mv hr hsub ih =>
    rcases ttt_submit_shape hsub with ⟨-, hbase | hfin | hnot⟩
    · intro hact
      rw [hbase] at hact ⊢
      exact ih hact
    · intro hact
      rw [hfin] at hact
      exact absurd hact (by decide)
    · intro _
      exact ttt_not_over_round_lt _ hnot

/-- History emptiness along tic-tac-toe reachability. -/
theorem reachTTT_history_nil : ∀ t, ReachTTT t → t.base.history = [] := by
  intro t h
  induction h with
  | init gid ps t hinit =>
    cases ps with
    | nil => exact Option.noConfusion hinit
    | cons p0 tl =>
      cases tl with
      | nil => exact Option.noConfusion hinit
      | cons p1 tl' =>
        obtain rfl := Option.some.inj hinit
        rfl
  | step pid mv hr hsub ih => exact (ttt_submit_shape hsub).1.trans ih

/-- History emptiness along chess reachability. -/
theorem reachChess_history_nil {Pos : Type} (E : Chess.Engine Pos) :
    ∀ c, ReachChess E c → c.base.history = [] := by
  intro c h
  induction h with
  | init gid ps => rfl
  | step pid mv cm hr hsub ih => exact (chess_submit_history hsub).trans ih

/-- Claim C5, amended: while a match is still active its round counter
stays strictly below `maxRounds` for the three round-counted games; once
the match finishes, the counter can exceed the cap (the finishing
resolution takes the simultaneous games to `maxRounds + 1`, and the chess
variant increments its counter on every non-terminal move against
`maxRounds = 1`). The completion check runs as part of every
round-resolving move: a resolving move whose completion check is positive
leaves `status = finished`. -/
theorem c5_amended_active_round_bound :
    (∀ s, ReachRPS s → s.status = Status.active → s.round < s.maxRounds)
    ∧ (∀ s, ReachCF s → s.status = Status.active → s.round < s.maxRounds)
    ∧ (∀ t, ReachTTT t → t.base.status = Status.active → t.base.round < t.base.maxRounds)
    ∧ (∀ (g : GameVariant) (s : GameState) (pid mv : String) (o : Oracle) r s',
        submitMove g s pid mv o = some (r, s') → r.roundCompleted = some true →
        g.isGameOver s' = true → s'.status = Status.finished)
    ∧ (∀ (t : TTT.TTTState) (pid mv : String) r t',
        TTT.submitMove t pid mv = some (r, t') → r.roundCompleted = some true →
        TTT.isGameOver t' = true → t'.base.status = Status.finished) :=
  ⟨reachRPS_round_lt, reachCF_round_lt, reachTTT_round_lt,
   fun g _ _ _ _ _ _ hsub hrc hov => submit_completion_check g hsub hrc hov,
   fun _ _ _ _ _ hsub hrc hov => ttt_completion_check hsub hrc hov⟩

/-- Witness for the amended claim C5 at the fresh RPS match state. -/
theorem c5_amended_witness :
    (initState RPS.CONFIG "g1" Demo.ps2).round
      < (initState RPS.CONFIG "g1" Demo.ps2).maxRounds :=
  c5_amended_active_round_bound.1 (initState RPS.CONFIG "g1" Demo.ps2)
    (ReachRPS.init "g1" Demo.ps2) (by decide)

/-- Claim C9 (confirmed): the turn-based games never append to the
inherited history list — their `submitMove` overrides bypass the base
implementation — so on every reachable state the history is empty, its
last entry is absent, and the orchestrator's `round_result` broadcast
(guarded by `if (lastRound)`) never fires for them. -/
theorem c9_turn_based_history_empty :
    (∀ t, ReachTTT t → t.base.history = []
      ∧ lastRound t.base = none
      ∧ ∀ rc, roundResultBroadcastFires rc t.base = false)
    ∧ (∀ (Pos : Type) (E : Chess.Engine Pos) c, ReachChess E c →
        c.base.history = []
        ∧ lastRound c.base = none
        ∧ ∀ rc, roundResultBroadcastFires rc c.base = false) := by
  constructor
  · intro t h
    have hh := reachTTT_history_nil t h
    refine ⟨hh, ?_, ?_⟩
    · rw [lastRound, hh]; rfl
    · intro rc
      rw [roundResultBroadcastFires, lastRound, hh]
      cases rc <;> rfl
  · intro Pos E c h
    have hh := reachChess_history_nil E c h
    refine ⟨hh, ?_, ?_⟩
    · rw [lastRound, hh]; rfl
    · intro rc
      rw [roundResultBroadcastFires, lastRound, hh]
      cases rc <;> rfl

/-- Witness for claim C9 at a concrete reachable tic-tac-toe state. -/
theorem c9_witness :
    Demo.ttt0.base.history = []
    ∧ lastRound Demo.ttt0.base = none
    ∧ ∀ rc, roundResultBroadcastFires rc Demo.ttt0.base = false :=
  c9_turn_based_history_empty.1 Demo.ttt0
    (ReachTTT.init "g1" Demo.ps2 Demo.ttt0 (by decide))

/-- Claim C10 (confirmed): RPS validation lowercases the move for the
membership check, so `Rock` and `rock` are both accepted, but
`determineWinner` compares the stored strings case-sensitively: the pair
`Rock` / `rock` is no tie and resolves as a win for the second mover. -/
theorem c10_rps_case_sensitive_resolution :
    (RPS.validateMove Demo.rps0 "p1" "Rock").valid = true
    ∧ (RPS.validateMove Demo.rpsAfterRock "p2" "rock").valid = true
    ∧ (Demo.runRPS [("p1", "Rock"), ("p2", "rock")]).history.map RoundResult.winnerId
      = [some "p2"]
    ∧ (Demo.runRPS [("p1", "Rock"), ("p2", "rock")]).history.map RoundResult.tie
      = [false] := by decide

end Arena
